import Mathlib

/-!
Verification of the configuration-synchronization engine of the
`config-ninja` repository against its natural-language specification.

The development shallowly embeds the two source modules:

* `config_ninja/contrib/appconfig.py` — the AWS AppConfig backend, in
  particular the long-poll loop `AppConfigBackend.poll` and the
  name-resolution helper `AppConfigBackend._get_id_from_name`;
* `config_ninja/cli.py` — the `DestSpec` / `BackendController` pipeline
  and the `apply` / `monitor` commands.

Effectful Python code is embedded as pure functions producing explicit
event traces; the remote AppConfig service is represented by the list of
responses it returns to successive requests.
-/

/-- A single response of the AWS AppConfig service to one
`get_latest_configuration` request, as consumed by the loop in
`AppConfigBackend.poll`.  `ok` carries `NextPollConfigurationToken`,
`NextPollIntervalInSeconds` and the configuration content read from the
response body (the empty string models an empty/unchanged payload).
`badRequest` models `BadRequestException` with its error message;
`otherError` models any other exception raised by the client call. -/
inductive FetchResult where
  | ok (nextToken : String) (nextIntervalInSeconds : ℚ) (content : String)
  | badRequest (message : String)
  | otherError (message : String)
deriving DecidableEq, Repr

/-- An error propagated out of the polling loop to the caller. -/
inductive FetchError where
  | badRequest (message : String)
  | other (message : String)
deriving DecidableEq, Repr

/-- Observable events of one run of the polling loop:  a fetch request
carrying its `ConfigurationToken`, a `yield` of decoded content, an
`asyncio.sleep`, or an exception escaping the loop. -/
inductive PollEvent where
  | fetch (token : String)
  | emit (content : String)
  | sleep (seconds : ℚ)
  | raiseError (e : FetchError)
deriving DecidableEq, Repr

/-- The distinguished message of the "polled too early" server error,
matched literally by `AppConfigBackend.poll`. -/
def tooEarlyMessage : String := "Request too early"

/-- Whether a response is an error that escapes the `except` handler of
`AppConfigBackend.poll`: a `BadRequestException` whose message is not
`tooEarlyMessage` is re-raised, and any other exception is never caught. -/
def FetchResult.isFatal : FetchResult → Bool
  | .ok _ _ _ => false
  | .badRequest msg => msg != tooEarlyMessage
  | .otherError _ => true

/-- The error carried by a response, if any. -/
def FetchResult.errorOf : FetchResult → Option FetchError
  | .ok _ _ _ => none
  | .badRequest msg => some (.badRequest msg)
  | .otherError msg => some (.other msg)

/-- The `while True` loop of `AppConfigBackend.poll`, run against the
list of responses the service returns to its successive fetch requests
(the run ends when the response list is exhausted or an error escapes).
State is the current `ConfigurationToken`; `interval` is the argument of
`poll`, which the loop never reassigns.  Mirrors, in order: the fetch;
on `BadRequestException` either the half-interval backoff (token kept)
or the re-raise; on success the token update, the conditional `yield`,
and the sleep for `NextPollIntervalInSeconds`. -/
def AppConfigBackend.pollLoop (interval : ℚ) : String → List FetchResult → List PollEvent
  | _, [] => []
  | token, .ok nextToken nextInterval content :: rest =>
      PollEvent.fetch token ::
        ((if content = "" then [] else [PollEvent.emit content]) ++
          PollEvent.sleep nextInterval :: AppConfigBackend.pollLoop interval nextToken rest)
  | token, .badRequest msg :: rest =>
      if msg = tooEarlyMessage then
        PollEvent.fetch token :: PollEvent.sleep (interval / 2) ::
          AppConfigBackend.pollLoop interval token rest
      else
        [PollEvent.fetch token, PollEvent.raiseError (.badRequest msg)]
  | token, .otherError msg :: _ =>
      [PollEvent.fetch token, PollEvent.raiseError (.other msg)]

/-- `AppConfigBackend.poll`: one `start_configuration_session` call
yields `initialToken` (the session is opened exactly once, before the
loop), then the loop runs against the service's responses. -/
def AppConfigBackend.poll (interval : ℚ) (initialToken : String)
    (responses : List FetchResult) : List PollEvent :=
  AppConfigBackend.pollLoop interval initialToken responses

/-- The `ConfigurationToken` values carried by the successive fetch
requests of a trace. -/
def fetchTokens (events : List PollEvent) : List String :=
  events.filterMap fun e =>
    match e with
    | .fetch t => some t
    | _ => none

/-- The raw strings yielded by a trace, in order. -/
def emitted (events : List PollEvent) : List String :=
  events.filterMap fun e =>
    match e with
    | .emit s => some s
    | _ => none

/-- The durations of the successive sleeps of a trace.  The loop sleeps
exactly once between consecutive fetches, so the k-th sleep separates
fetch k from fetch k+1. -/
def sleeps (events : List PollEvent) : List ℚ :=
  events.filterMap fun e =>
    match e with
    | .sleep q => some q
    | _ => none

/-- The errors propagated out of the loop by a trace. -/
def raised (events : List PollEvent) : List FetchError :=
  events.filterMap fun e =>
    match e with
    | .raiseError err => some err
    | _ => none

/-- Modelled from the spec: the "current poll interval" of the session
state, which per the specification is adopted from each successful
response ("adopt the server-provided next token and next interval").
`specIntervalAt init responses k` is the interval in effect, in that
sense, at the time the k-th fetch request is answered.  The source code
has no such adopted-interval state; this definition exists to compare
the specification's wording with the code's behaviour. -/
def specIntervalAt (init : ℚ) : List FetchResult → Nat → ℚ
  | _, 0 => init
  | [], _ + 1 => init
  | .ok _ nextInterval _ :: rest, k + 1 => specIntervalAt nextInterval rest k
  | .badRequest _ :: rest, k + 1 => specIntervalAt init rest k
  | .otherError _ :: rest, k + 1 => specIntervalAt init rest k

/-- The non-empty contents of the successful responses of a list, in
order: the contents the protocol delivers as "changed". -/
def okContents (rs : List FetchResult) : List String :=
  rs.filterMap fun r =>
    match r with
    | .ok _ _ c => if c = "" then none else some c
    | _ => none

/-- The index of the first response whose error escapes the loop. -/
def firstFatalIdx : List FetchResult → Option Nat
  | [] => none
  | r :: rest => if r.isFatal then some 0 else (firstFatalIdx rest).map (· + 1)

section PollLemmas

variable (interval : ℚ) (t nextToken : String) (nextInterval : ℚ) (content msg : String)
variable (rest : List FetchResult)

theorem fetchTokens_pollLoop_nil : fetchTokens (AppConfigBackend.pollLoop interval t []) = [] := by
  simp [AppConfigBackend.pollLoop, fetchTokens]

theorem fetchTokens_pollLoop_ok :
    fetchTokens (AppConfigBackend.pollLoop interval t
        (.ok nextToken nextInterval content :: rest)) =
      t :: fetchTokens (AppConfigBackend.pollLoop interval nextToken rest) := by
  by_cases h : content = "" <;>
    simp [AppConfigBackend.pollLoop, fetchTokens, h]

theorem fetchTokens_pollLoop_tooEarly :
    fetchTokens (AppConfigBackend.pollLoop interval t (.badRequest tooEarlyMessage :: rest)) =
      t :: fetchTokens (AppConfigBackend.pollLoop interval t rest) := by
  simp [AppConfigBackend.pollLoop, fetchTokens]

theorem fetchTokens_pollLoop_badRequest (h : msg ≠ tooEarlyMessage) :
    fetchTokens (AppConfigBackend.pollLoop interval t (.badRequest msg :: rest)) = [t] := by
  simp [AppConfigBackend.pollLoop, fetchTokens, h]

theorem fetchTokens_pollLoop_otherError :
    fetchTokens (AppConfigBackend.pollLoop interval t (.otherError msg :: rest)) = [t] := by
  simp [AppConfigBackend.pollLoop, fetchTokens]

theorem fetchTokens_pollLoop_head :
    (fetchTokens (AppConfigBackend.pollLoop interval t rest)).head? =
      if rest.isEmpty then none else some t := by
  cases rest with
  | nil => simp [fetchTokens_pollLoop_nil]
  | cons r rest =>
    cases r with
    | ok nt ni c => simp [fetchTokens_pollLoop_ok]
    | badRequest m =>
      by_cases h : m = tooEarlyMessage
      · subst h; simp [fetchTokens_pollLoop_tooEarly]
      · simp [fetchTokens_pollLoop_badRequest _ _ _ _ h]
    | otherError m => simp [fetchTokens_pollLoop_otherError]

theorem sleeps_pollLoop_ok :
    sleeps (AppConfigBackend.pollLoop interval t
        (.ok nextToken nextInterval content :: rest)) =
      nextInterval :: sleeps (AppConfigBackend.pollLoop interval nextToken rest) := by
  by_cases h : content = "" <;>
    simp [AppConfigBackend.pollLoop, sleeps, h]

theorem sleeps_pollLoop_tooEarly :
    sleeps (AppConfigBackend.pollLoop interval t (.badRequest tooEarlyMessage :: rest)) =
      interval / 2 :: sleeps (AppConfigBackend.pollLoop interval t rest) := by
  simp [AppConfigBackend.pollLoop, sleeps]

theorem raised_pollLoop_ok :
    raised (AppConfigBackend.pollLoop interval t
        (.ok nextToken nextInterval content :: rest)) =
      raised (AppConfigBackend.pollLoop interval nextToken rest) := by
  by_cases h : content = "" <;>
    simp [AppConfigBackend.pollLoop, raised, h]

theorem raised_pollLoop_tooEarly :
    raised (AppConfigBackend.pollLoop interval t (.badRequest tooEarlyMessage :: rest)) =
      raised (AppConfigBackend.pollLoop interval t rest) := by
  simp [AppConfigBackend.pollLoop, raised]

theorem raised_pollLoop_badRequest (h : msg ≠ tooEarlyMessage) :
    raised (AppConfigBackend.pollLoop interval t (.badRequest msg :: rest)) =
      [FetchError.badRequest msg] := by
  simp [AppConfigBackend.pollLoop, raised, h]

theorem raised_pollLoop_otherError :
    raised (AppConfigBackend.pollLoop interval t (.otherError msg :: rest)) =
      [FetchError.other msg] := by
  simp [AppConfigBackend.pollLoop, raised]

theorem emitted_pollLoop_isPrefixOf :
    emitted (AppConfigBackend.pollLoop interval t rest) <+: okContents rest := by
  induction rest generalizing t with
  | nil => simp [AppConfigBackend.pollLoop, emitted]
  | cons r rest ih =>
    cases r with
    | ok nt ni c =>
      by_cases h : c = "" <;>
        simp [AppConfigBackend.pollLoop, emitted, okContents, h] at ih ⊢ <;>
        exact ih nt
    | badRequest m =>
      by_cases h : m = tooEarlyMessage
      · subst h
        simp [AppConfigBackend.pollLoop, emitted, okContents] at ih ⊢
        exact ih t
      · simp [AppConfigBackend.pollLoop, emitted, okContents, h]
    | otherError m =>
      simp [AppConfigBackend.pollLoop, emitted, okContents]

end PollLemmas

/-- Server script in which the first successful response adopts a next
poll interval of 120 seconds before the server rejects the second
request as "too early". -/
def adjustedIntervalResponses : List FetchResult :=
  [.ok "t1" 120 "v", .badRequest tooEarlyMessage, .ok "t2" 60 "w"]

/-- C1 (counterexample): the claim says the backoff sleep after a
"polled too early" error is exactly half the poll interval currently in
effect.  With `poll(60)` and a first response adopting a next interval
of 120 seconds, the interval in effect at the error (per the spec's
session state, `specIntervalAt`) is 120, so half of it is 60 — but the
code sleeps `interval / 2 = 30`, because the loop never updates its
`interval` variable. -/
theorem backoff_sleep_ne_half_interval_in_effect :
    (sleeps (AppConfigBackend.poll 60 "t0" adjustedIntervalResponses)).get? 1 = some 30 ∧
    specIntervalAt 60 adjustedIntervalResponses 1 / 2 = 60 ∧
    (sleeps (AppConfigBackend.poll 60 "t0" adjustedIntervalResponses)).get? 1 ≠
      some (specIntervalAt 60 adjustedIntervalResponses 1 / 2) := by
  refine ⟨?_, ?_, ?_⟩ <;>
    norm_num +decide [AppConfigBackend.poll, AppConfigBackend.pollLoop, sleeps,
      adjustedIntervalResponses, specIntervalAt, tooEarlyMessage]

/-- C1 (amended): whenever the k-th fetch of a poll session fails with
the "polled too early" error (and the session reached that fetch, i.e.
no earlier response was fatal), the sleep between the failed request and
the retry is exactly half the `interval` argument of `poll` (the
session's initial minimum poll interval, never updated by the loop), and
the retry — when it happens — carries the same configuration token as
the failed request. -/
theorem tooEarly_backoff_keeps_token_sleeps_half_poll_arg
    (interval : ℚ) (t0 : String) (rs : List FetchResult) (k : Nat)
    (hk : rs.get? k = some (.badRequest tooEarlyMessage))
    (hpre : ∀ j, j < k → ∀ r, rs.get? j = some r → r.isFatal = false) :
    (sleeps (AppConfigBackend.poll interval t0 rs)).get? k = some (interval / 2) ∧
    (fetchTokens (AppConfigBackend.poll interval t0 rs)).get? (k + 1) =
      (if k + 1 < rs.length then
        (fetchTokens (AppConfigBackend.poll interval t0 rs)).get? k
      else none) := by
  induction rs generalizing t0 k with
  | nil => simp at hk
  | cons r rest ih =>
    cases k with
    | zero =>
      simp only [List.get?_cons_zero, Option.some_inj] at hk
      subst hk
      constructor
      · rw [AppConfigBackend.poll, sleeps_pollLoop_tooEarly, List.get?_cons_zero]
      · rw [AppConfigBackend.poll, fetchTokens_pollLoop_tooEarly, List.get?_cons_succ,
          List.get?_zero, fetchTokens_pollLoop_head]
        cases rest <;> simp
    | succ k =>
      rw [List.get?_cons_succ] at hk
      have hpre0 : r.isFatal = false := hpre 0 (Nat.succ_pos k) r rfl
      have hpre' : ∀ j, j < k → ∀ x, rest.get? j = some x → x.isFatal = false := by
        intro j hj x hx
        exact hpre (j + 1) (by omega) x (by simpa using hx)
      cases r with
      | ok nt ni c =>
        have h := ih nt k hk hpre'
        rw [AppConfigBackend.poll] at h ⊢
        rw [sleeps_pollLoop_ok, fetchTokens_pollLoop_ok]
        simpa [Nat.succ_lt_succ_iff] using h
      | badRequest m =>
        by_cases hm : m = tooEarlyMessage
        · subst hm
          have h := ih t0 k hk hpre'
          rw [AppConfigBackend.poll] at h ⊢
          rw [sleeps_pollLoop_tooEarly, fetchTokens_pollLoop_tooEarly]
          simpa [Nat.succ_lt_succ_iff] using h
        · simp [FetchResult.isFatal, hm] at hpre0
      | otherError m => simp [FetchResult.isFatal] at hpre0

/-- C1 witness: a concrete run in which the second request fails with
the too-early error; the backoff sleep is 30 = 60 / 2 and the third
request reuses the second request's token. -/
theorem tooEarly_backoff_keeps_token_sleeps_half_poll_arg_witness :
    (sleeps (AppConfigBackend.poll 60 "t0" adjustedIntervalResponses)).get? 1 =
        some (60 / 2) ∧
    (fetchTokens (AppConfigBackend.poll 60 "t0" adjustedIntervalResponses)).get? 2 =
      (if 2 < adjustedIntervalResponses.length then
        (fetchTokens (AppConfigBackend.poll 60 "t0" adjustedIntervalResponses)).get? 1
      else none) := by
  have h := tooEarly_backoff_keeps_token_sleeps_half_poll_arg 60 "t0"
    adjustedIntervalResponses 1 (by decide)
    (by
      intro j hj r hr
      interval_cases j
      simp only [adjustedIntervalResponses, List.get?_cons_zero, Option.some_inj] at hr
      subst hr
      rfl)
  simpa using h

/-- C2 (counterexample): the claim says `poll()` never yields two
consecutive identical raw strings, for every sequence of server fetch
responses.  The loop deduplicates nothing itself — it only skips empty
payloads — so a server that returns the same non-empty content in two
consecutive successful responses makes `poll` emit it twice. -/
theorem poll_can_emit_consecutive_duplicates :
    emitted (AppConfigBackend.poll 1 "t0" [.ok "t1" 1 "v", .ok "t2" 1 "v"]) = ["v", "v"] ∧
    ¬ List.Chain' (· ≠ ·)
        (emitted (AppConfigBackend.poll 1 "t0" [.ok "t1" 1 "v", .ok "t2" 1 "v"])) := by
  have h : emitted (AppConfigBackend.poll 1 "t0" [.ok "t1" 1 "v", .ok "t2" 1 "v"]) =
      ["v", "v"] := by
    norm_num +decide [AppConfigBackend.poll, AppConfigBackend.pollLoop, emitted]
  exact ⟨h, by rw [h]; simp [List.chain'_cons]⟩

/-- C2 (amended): a fetch response with empty content yields no element
— the stream just sleeps and continues with the next fetch — and
therefore, whenever the server delivers unchanged values as empty
payloads (so that consecutive non-empty delivered contents differ,
`okContents`), `poll()` never yields two consecutive identical raw
strings. -/
theorem poll_emits_only_changed (interval : ℚ) (t0 : String) (rs : List FetchResult)
    (hconf : List.Chain' (· ≠ ·) (okContents rs)) :
    List.Chain' (· ≠ ·) (emitted (AppConfigBackend.poll interval t0 rs)) ∧
    ∀ (i : ℚ) (t nt : String) (ni : ℚ) (rest : List FetchResult),
      AppConfigBackend.pollLoop i t (.ok nt ni "" :: rest) =
        PollEvent.fetch t :: PollEvent.sleep ni ::
          AppConfigBackend.pollLoop i nt rest := by
  constructor
  · exact List.Chain'.prefix hconf (emitted_pollLoop_isPrefixOf interval t0 rs)
  · intro i t nt ni rest
    simp [AppConfigBackend.pollLoop]

/-- C2 witness: a protocol-conformant run — changed "v1", unchanged
(empty), changed "v2" — emits exactly "v1" then "v2" with no
consecutive duplicates. -/
theorem poll_emits_only_changed_witness :
    List.Chain' (· ≠ ·) (emitted (AppConfigBackend.poll 1 "t0"
      [.ok "t1" 1 "v1", .ok "t2" 1 "", .ok "t3" 1 "v2"])) :=
  (poll_emits_only_changed 1 "t0"
    [.ok "t1" 1 "v1", .ok "t2" 1 "", .ok "t3" 1 "v2"]
    (by simp +decide [okContents, List.chain'_cons])).1

/-- C3: after a successful fetch response (changed or empty content),
the configuration token of the next fetch request — whenever that
request happens — is exactly the `NextPollConfigurationToken` of the
current response.  (The session is opened exactly once, before the
loop: `AppConfigBackend.poll` threads a single `initialToken` and only
ever replaces it with a token taken from a response.) -/
theorem next_request_token_eq_current_response_token
    (interval : ℚ) (t0 : String) (rs : List FetchResult) (k : Nat)
    (nextToken : String) (nextInterval : ℚ) (content : String)
    (hk : rs.get? k = some (.ok nextToken nextInterval content)) :
    ∀ t, (fetchTokens (AppConfigBackend.poll interval t0 rs)).get? (k + 1) = some t →
      t = nextToken := by
  induction rs generalizing t0 k with
  | nil => simp at hk
  | cons r rest ih =>
    cases k with
    | zero =>
      simp only [List.get?_cons_zero, Option.some_inj] at hk
      subst hk
      intro t ht
      rw [AppConfigBackend.poll, fetchTokens_pollLoop_ok, List.get?_cons_succ,
        List.get?_zero, fetchTokens_pollLoop_head] at ht
      cases rest <;> simp at ht
      exact ht.symm
    | succ k =>
      rw [List.get?_cons_succ] at hk
      intro t ht
      cases r with
      | ok nt ni c =>
        rw [AppConfigBackend.poll, fetchTokens_pollLoop_ok, List.get?_cons_succ] at ht
        exact ih nt k hk t ht
      | badRequest m =>
        by_cases hm : m = tooEarlyMessage
        · subst hm
          rw [AppConfigBackend.poll, fetchTokens_pollLoop_tooEarly,
            List.get?_cons_succ] at ht
          exact ih t0 k hk t ht
        · rw [AppConfigBackend.poll,
            fetchTokens_pollLoop_badRequest _ _ _ _ hm] at ht
          simp at ht
      | otherError m =>
        rw [AppConfigBackend.poll, fetchTokens_pollLoop_otherError] at ht
        simp at ht

/-- C3 witness: in a run whose first response carries next token "t1",
the second request indeed carries "t1". -/
theorem next_request_token_eq_current_response_token_witness :
    ("t1" : String) = "t1" :=
  next_request_token_eq_current_response_token 60 "t0"
    [.ok "t1" 60 "v", .ok "t2" 60 ""] 0 "t1" 60 "v" (by decide) "t1"
    (by norm_num +decide [AppConfigBackend.poll, AppConfigBackend.pollLoop, fetchTokens])

/-- C4: a fetch error is handled internally (no raised error, polling
continues) if and only if it is a `BadRequestException` whose message is
exactly "Request too early"; every other error propagates and ends the
sequence.  Concretely: the errors raised by a run are exactly the error
of the first fatal response (none if there is none), and the number of
fetches performed is the full response count when no response is fatal,
and stops exactly at the first fatal response otherwise. -/
theorem fetch_error_handled_iff_tooEarly (interval : ℚ) (t0 : String)
    (rs : List FetchResult) :
    raised (AppConfigBackend.poll interval t0 rs) =
      ((rs.find? FetchResult.isFatal).bind FetchResult.errorOf).toList ∧
    (fetchTokens (AppConfigBackend.poll interval t0 rs)).length =
      (match firstFatalIdx rs with
        | some j => j + 1
        | none => rs.length) := by
  induction rs generalizing t0 with
  | nil =>
    simp [AppConfigBackend.poll, AppConfigBackend.pollLoop, raised, fetchTokens,
      firstFatalIdx]
  | cons r rest ih =>
    cases r with
    | ok nt ni c =>
      have h := ih nt
      rw [AppConfigBackend.poll] at h ⊢
      rw [raised_pollLoop_ok, fetchTokens_pollLoop_ok]
      constructor
      · rw [h.1]
        simp [FetchResult.isFatal]
      · rw [List.length_cons, h.2]
        simp only [firstFatalIdx, FetchResult.isFatal]
        cases hf : firstFatalIdx rest <;> simp [hf]
    | badRequest m =>
      by_cases hm : m = tooEarlyMessage
      · subst hm
        have h := ih t0
        rw [AppConfigBackend.poll] at h ⊢
        rw [raised_pollLoop_tooEarly, fetchTokens_pollLoop_tooEarly]
        constructor
        · rw [h.1]
          simp [FetchResult.isFatal]
        · rw [List.length_cons, h.2]
          simp only [firstFatalIdx, FetchResult.isFatal]
          cases hf : firstFatalIdx rest <;> simp [hf]
      · rw [AppConfigBackend.poll, raised_pollLoop_badRequest _ _ _ _ hm,
          fetchTokens_pollLoop_badRequest _ _ _ _ hm]
        constructor
        · simp [FetchResult.isFatal, FetchResult.errorOf, hm]
        · simp [firstFatalIdx, FetchResult.isFatal, hm]
    | otherError m =>
      rw [AppConfigBackend.poll, raised_pollLoop_otherError,
        fetchTokens_pollLoop_otherError]
      constructor
      · simp [FetchResult.isFatal, FetchResult.errorOf]
      · simp [firstFatalIdx, FetchResult.isFatal]

/-- A non-fatal `RuntimeWarning` emitted by
`AppConfigBackend._get_id_from_name` when a name matches several ids:
it names the operation, the searched name, the id that will be used and
the ids that are ignored. -/
structure AmbiguousWarning where
  operationName : String
  name : String
  used : String
  ignored : List String
deriving DecidableEq, Repr

/-- The outcome of a successful name resolution: the chosen id together
with the warning, if one was emitted. -/
structure Resolution where
  id : String
  warning : Option AmbiguousWarning
deriving DecidableEq, Repr

/-- `AppConfigBackend._get_id_from_name`, applied to the list of ids the
paginated search returned for the given name (in server order).  An
empty list raises `ValueError` with the message built by the source; a
longer list warns (naming `ids[1:]` as ignored) and returns `ids[0]`. -/
def getIdFromName (name operationName : String) (ids : List String) :
    Except String Resolution :=
  match ids with
  | [] =>
      .error ("no \"" ++ operationName ++ "\" results found for Name=\"" ++ name ++ "\"")
  | chosen :: rest =>
      .ok ⟨chosen,
        if rest.isEmpty then none
        else some ⟨operationName, name, chosen, rest⟩⟩

/-- `AppConfigBackend.new`, reduced to its three name resolutions: the
application name via `list_applications`, then the configuration profile
and environment names via `list_configuration_profiles` and
`list_environments`.  The server is represented by the id lists each
search returns; the first failing resolution aborts construction. -/
def AppConfigBackend.new (applicationIds profileIds environmentIds : List String)
    (applicationName configurationProfileName environmentName : String) :
    Except String (String × String × String) := do
  let app ← getIdFromName applicationName "list_applications" applicationIds
  let prof ← getIdFromName configurationProfileName "list_configuration_profiles" profileIds
  let env ← getIdFromName environmentName "list_environments" environmentIds
  pure (app.id, prof.id, env.id)

/-- C5: name resolution with zero matches fails with an error naming the
search operation and the searched name; with exactly one match it
returns that id and no warning; with several matches it returns the
first id in server order and emits a warning enumerating exactly the
discarded ids. -/
theorem getIdFromName_cases (name operationName : String) (ids : List String) :
    (ids = [] →
      getIdFromName name operationName ids =
        .error ("no \"" ++ operationName ++ "\" results found for Name=\"" ++
          name ++ "\"")) ∧
    (∀ chosen, ids = [chosen] →
      getIdFromName name operationName ids = .ok ⟨chosen, none⟩) ∧
    (∀ chosen second rest, ids = chosen :: second :: rest →
      getIdFromName name operationName ids =
        .ok ⟨chosen, some ⟨operationName, name, chosen, second :: rest⟩⟩) := by
  refine ⟨?_, ?_, ?_⟩
  · rintro rfl
    rfl
  · rintro chosen rfl
    rfl
  · rintro chosen second rest rfl
    simp [getIdFromName]

/-- C5 witness: the three cases at concrete inputs, mirroring the
doctest fixtures of `AppConfigBackend.new` (zero, one and two ids). -/
theorem getIdFromName_cases_witness :
    getIdFromName "app-name" "list_applications" [] =
      .error "no \"list_applications\" results found for Name=\"app-name\"" ∧
    getIdFromName "app-name" "list_applications" ["id-1"] = .ok ⟨"id-1", none⟩ ∧
    getIdFromName "app-name" "list_applications" ["id-1", "id-2"] =
      .ok ⟨"id-1", some ⟨"list_applications", "app-name", "id-1", ["id-2"]⟩⟩ := by
  refine ⟨?_, ?_, ?_⟩
  · exact (getIdFromName_cases "app-name" "list_applications" []).1 rfl
  · exact (getIdFromName_cases "app-name" "list_applications" ["id-1"]).2.1 "id-1" rfl
  · exact (getIdFromName_cases "app-name" "list_applications" ["id-1", "id-2"]).2.2
      "id-1" "id-2" [] rfl

/-- Modelled from the spec: the fixed enumerated set of serializer tags
(`config_ninja.backend.DUMPERS`; the spec gives "e.g. raw, json, yaml").
Only membership in the set matters to the code under verification. -/
def DUMPERS : List String := ["json", "raw", "yaml"]

/-- Modelled from the spec: a compiled template, the result of
`compile(path) -> Template` (in the source, `jinja2` compiles the file
at the configured path via `env.get_template`).  A compiled template is
identified by the path it was compiled from. -/
structure Template where
  sourcePath : String
deriving DecidableEq, Repr

/-- Modelled from the spec: template compilation, performed once at
`DestSpec` construction. -/
def compileTemplate (path : String) : Template := ⟨path⟩

/-- The format of `DestSpec`: either a serializer tag (`FormatT`) or a
compiled `jinja2` template — exactly one of the two. -/
inductive DestFormat where
  | tag (fmt : String)
  | template (tpl : Template)
deriving DecidableEq, Repr

/-- `config_ninja.cli.DestSpec`: the destination path together with the
serializer-or-template format, both fixed at construction. -/
structure DestSpec where
  path : String
  format : DestFormat
deriving DecidableEq, Repr

/-- `DestSpec.is_template`: whether the destination renders through a
compiled template. -/
def DestSpec.isTemplate (d : DestSpec) : Bool :=
  match d.format with
  | .template _ => true
  | .tag _ => false

/-- The `new` sub-entry of a source entry (`source['new']`), holding its
`kwargs` mapping if present. -/
structure NewSpec where
  kwargs : Option (List (String × String))
deriving DecidableEq, Repr

/-- The `init` sub-entry of a source entry (`source['init']`). -/
structure InitSpec where
  kwargs : Option (List (String × String))
deriving DecidableEq, Repr

/-- The `source` part of a configuration-object entry; `none` fields
model missing dictionary keys.  `new = some _` models a present and
truthy `source.get('new')`. -/
structure SourceEntry where
  backend : Option String
  format : Option String
  new : Option NewSpec
  init : Option InitSpec
deriving DecidableEq, Repr

/-- The `dest` part of a configuration-object entry. -/
structure DestEntry where
  path : Option String
  format : Option String
deriving DecidableEq, Repr

/-- One entry of `settings.OBJECTS`. -/
structure ObjectEntry where
  source : Option SourceEntry
  dest : Option DestEntry
deriving DecidableEq, Repr

/-- The `settings.OBJECTS` mapping, as an association list of entries
keyed by configuration-object name. -/
def ObjectsMap : Type := List (String × ObjectEntry)

/-- Dictionary lookup `objects[key]`. -/
def lookupKey (objects : ObjectsMap) (key : String) : Option ObjectEntry :=
  (List.find? (fun p => p.1 == key) objects).map Prod.snd

/-- Python subscription `d[k]`: a missing key raises `KeyError(k)`,
modelled as `Except.error k`. -/
def requireKey {α : Type} (keyName : String) : Option α → Except String α
  | some v => Except.ok v
  | none => Except.error keyName

/-- The error raised by `typer.Exit(code)` after `handle_key_errors`
printed its message. -/
structure ExitError where
  code : Nat
  message : String
deriving DecidableEq, Repr

/-- The message `handle_key_errors` prints for `KeyError(k)`. -/
def missingKeyMessage (k : String) : String :=
  "[red]ERROR[/]: Missing key: [green]" ++ k ++ "[/]"

/-- `config_ninja.cli.handle_key_errors`: code run in the managed
context that raises `KeyError(k)` is converted into a printed
missing-key message followed by `typer.Exit(1)`. -/
def handleKeyErrors {α : Type} : Except String α → Except ExitError α
  | .ok v => .ok v
  | .error k => .error ⟨1, missingKeyMessage k⟩

/-- The key accesses of `BackendController._get_dest`, performed inside
`handle_key_errors`: `objects[key]['dest']`, then `dest['path']` and
`dest['format']`. -/
def getDestKeys (objects : ObjectsMap) (key : String) : Except String (String × String) := do
  let obj ← requireKey key (lookupKey objects key)
  let dest ← requireKey "dest" obj.dest
  let path ← requireKey "path" dest.path
  let fmt ← requireKey "format" dest.format
  pure (path, fmt)

/-- `BackendController._get_dest`: if the configured format string is a
known serializer tag the spec binds that tag, otherwise the string is a
filesystem path whose template is compiled now, at construction. -/
def getDest (objects : ObjectsMap) (key : String) : Except ExitError DestSpec :=
  (handleKeyErrors (getDestKeys objects key)).map fun pf =>
    if pf.2 ∈ DUMPERS then ⟨pf.1, .tag pf.2⟩
    else ⟨pf.1, .template (compileTemplate pf.2)⟩

/-- A constructed backend instance: the registry tag it was selected by
(`get_backend(source['backend'])`), whether it was built through the
`new` factory, and the keyword arguments it received. -/
structure BackendInstance where
  backendKind : String
  viaNew : Bool
  kwargs : List (String × String)
deriving DecidableEq, Repr

/-- `BackendController._init_backend`: inside `handle_key_errors`, reads
`objects[key]['source']` and `source['backend']`, defaults the source
format to "raw", and constructs the backend from
`source['new']['kwargs']` when `new` is present (and truthy), else from
`source['init']['kwargs']`. -/
def initBackend (objects : ObjectsMap) (key : String) :
    Except ExitError (String × BackendInstance) :=
  handleKeyErrors (do
    let obj ← requireKey key (lookupKey objects key)
    let source ← requireKey "source" obj.source
    let backendKind ← requireKey "backend" source.backend
    let fmt := source.format.getD "raw"
    match source.new with
    | some n => do
        let kw ← requireKey "kwargs" n.kwargs
        pure (fmt, ⟨backendKind, true, kw⟩)
    | none => do
        let ini ← requireKey "init" source.init
        let kw ← requireKey "kwargs" ini.kwargs
        pure (fmt, ⟨backendKind, false, kw⟩))

/-- `config_ninja.cli.BackendController` after construction. -/
structure BackendController where
  src_format : String
  backend : BackendInstance
  dest : DestSpec
deriving DecidableEq, Repr

/-- `BackendController.__init__`: `_init_backend` first, then
`_get_dest`; the first failing key access aborts construction. -/
def BackendController.init (objects : ObjectsMap) (key : String) :
    Except ExitError BackendController := do
  let fb ← initBackend objects key
  let dest ← getDest objects key
  pure ⟨fb.1, fb.2, dest⟩

/-- The first required key missing from the entry `objects[key]`, in the
order `BackendController.__init__` accesses them (the settings key
itself, then `source`, `backend`, the construction kwargs, then `dest`,
`path`, `format`); `none` when construction finds every key it needs. -/
def firstMissingKey (objects : ObjectsMap) (key : String) : Option String :=
  match lookupKey objects key with
  | none => some key
  | some obj =>
    match obj.source with
    | none => some "source"
    | some source =>
      match source.backend with
      | none => some "backend"
      | some _ =>
        match source.new with
        | some n =>
          match n.kwargs with
          | none => some "kwargs"
          | some _ => destMissingKey obj
        | none =>
          match source.init with
          | none => some "init"
          | some ini =>
            match ini.kwargs with
            | none => some "kwargs"
            | some _ => destMissingKey obj
where
  /-- The first key missing among the `dest` accesses of `_get_dest`. -/
  destMissingKey (obj : ObjectEntry) : Option String :=
    match obj.dest with
    | none => some "dest"
    | some dest =>
      match dest.path with
      | none => some "path"
      | some _ =>
        match dest.format with
        | none => some "format"
        | some _ => none

/-- C7: whenever the configuration entry for `key` is missing a
required field, `BackendController` construction fails with the
missing-key error message naming that specific key, and the resulting
exit code 1 is non-zero. -/
theorem controller_init_missing_key (objects : ObjectsMap) (key k : String)
    (h : firstMissingKey objects key = some k) :
    BackendController.init objects key = .error ⟨1, missingKeyMessage k⟩ ∧
      (⟨1, missingKeyMessage k⟩ : ExitError).code ≠ 0 := by
  refine ⟨?_, by simp⟩
  cases hobj : lookupKey objects key with
  | none =>
    simp only [firstMissingKey, hobj, Option.some_inj] at h
    subst h
    simp [BackendController.init, initBackend, getDest, getDestKeys, handleKeyErrors,
      requireKey, hobj, bind, Except.bind, Except.map]
  | some obj =>
    cases hsrc : obj.source with
    | none =>
      simp only [firstMissingKey, hobj, hsrc, Option.some_inj] at h
      subst h
      simp [BackendController.init, initBackend, getDest, getDestKeys, handleKeyErrors,
        requireKey, hobj, hsrc, bind, Except.bind, Except.map]
    | some source =>
      cases hbk : source.backend with
      | none =>
        simp only [firstMissingKey, hobj, hsrc, hbk, Option.some_inj] at h
        subst h
        simp [BackendController.init, initBackend, getDest, getDestKeys, handleKeyErrors,
          requireKey, hobj, hsrc, hbk, bind, Except.bind, Except.map]
      | some bk =>
        have hdest : ∀ hd : firstMissingKey.destMissingKey obj = some k,
            BackendController.init objects key = .error ⟨1, missingKeyMessage k⟩ := by
          intro hd
          have hfb : ∃ v, initBackend objects key = Except.ok v := by
            cases hnew : source.new with
            | some n =>
              cases hkw : n.kwargs with
              | none =>
                exfalso
                simp only [firstMissingKey, hobj, hsrc, hbk, hnew, hkw] at h
                rw [← h] at hd
                cases hdest2 : obj.dest with
                | none => simp [firstMissingKey.destMissingKey, hdest2] at hd
                | some dest =>
                  cases hp : dest.path with
                  | none => simp [firstMissingKey.destMissingKey, hdest2, hp] at hd
                  | some p =>
                    cases hf : dest.format with
                    | none => simp [firstMissingKey.destMissingKey, hdest2, hp, hf] at hd
                    | some f => simp [firstMissingKey.destMissingKey, hdest2, hp, hf] at hd
              | some kw =>
                exact ⟨(source.format.getD "raw", ⟨bk, true, kw⟩), by
                  simp [initBackend, handleKeyErrors, requireKey, hobj, hsrc, hbk, hnew,
                    hkw, bind, Except.bind, pure, Except.pure]⟩
            | none =>
              cases hini : source.init with
              | none =>
                exfalso
                simp only [firstMissingKey, hobj, hsrc, hbk, hnew, hini,
                  Option.some_inj] at h
                rw [← h] at hd
                cases hdest2 : obj.dest with
                | none => simp [firstMissingKey.destMissingKey, hdest2] at hd
                | some dest =>
                  cases hp : dest.path with
                  | none => simp [firstMissingKey.destMissingKey, hdest2, hp] at hd
                  | some p =>
                    cases hf : dest.format with
                    | none => simp [firstMissingKey.destMissingKey, hdest2, hp, hf] at hd
                    | some f => simp [firstMissingKey.destMissingKey, hdest2, hp, hf] at hd
              | some ini =>
                cases hkw : ini.kwargs with
                | none =>
                  exfalso
                  simp only [firstMissingKey, hobj, hsrc, hbk, hnew, hini, hkw] at h
                  rw [← h] at hd
                  cases hdest2 : obj.dest with
                  | none => simp [firstMissingKey.destMissingKey, hdest2] at hd
                  | some dest =>
                    cases hp : dest.path with
                    | none => simp [firstMissingKey.destMissingKey, hdest2, hp] at hd
                    | some p =>
                      cases hf : dest.format with
                      | none => simp [firstMissingKey.destMissingKey, hdest2, hp, hf] at hd
                      | some f => simp [firstMissingKey.destMissingKey, hdest2, hp, hf] at hd
                | some kw =>
                  exact ⟨(source.format.getD "raw", ⟨bk, false, kw⟩), by
                    simp [initBackend, handleKeyErrors, requireKey, hobj, hsrc, hbk, hnew,
                      hini, hkw, bind, Except.bind, pure, Except.pure]⟩
          obtain ⟨v, hv⟩ := hfb
          cases hdest2 : obj.dest with
          | none =>
            simp only [firstMissingKey.destMissingKey, hdest2, Option.some_inj] at hd
            subst hd
            simp [BackendController.init, hv, getDest, getDestKeys, handleKeyErrors,
              requireKey, hobj, hdest2, bind, Except.bind, Except.map]
          | some dest =>
            cases hp : dest.path with
            | none =>
              simp only [firstMissingKey.destMissingKey, hdest2, hp, Option.some_inj] at hd
              subst hd
              simp [BackendController.init, hv, getDest, getDestKeys, handleKeyErrors,
                requireKey, hobj, hdest2, hp, bind, Except.bind, Except.map]
            | some p =>
              cases hf : dest.format with
              | none =>
                simp only [firstMissingKey.destMissingKey, hdest2, hp, hf,
                  Option.some_inj] at hd
                subst hd
                simp [BackendController.init, hv, getDest, getDestKeys, handleKeyErrors,
                  requireKey, hobj, hdest2, hp, hf, bind, Except.bind, Except.map]
              | some f =>
                exfalso
                simp [firstMissingKey.destMissingKey, hdest2, hp, hf] at hd
        cases hnew : source.new with
        | some n =>
          cases hkw : n.kwargs with
          | none =>
            simp only [firstMissingKey, hobj, hsrc, hbk, hnew, hkw, Option.some_inj] at h
            subst h
            simp [BackendController.init, initBackend, getDest, getDestKeys,
              handleKeyErrors, requireKey, hobj, hsrc, hbk, hnew, hkw, bind,
              Except.bind, Except.map]
          | some kw =>
            apply hdest
            simpa only [firstMissingKey, hobj, hsrc, hbk, hnew, hkw] using h
        | none =>
          cases hini : source.init with
          | none =>
            simp only [firstMissingKey, hobj, hsrc, hbk, hnew, hini, Option.some_inj] at h
            subst h
            simp [BackendController.init, initBackend, getDest, getDestKeys,
              handleKeyErrors, requireKey, hobj, hsrc, hbk, hnew, hini, bind,
              Except.bind, Except.map]
          | some ini =>
            cases hkw : ini.kwargs with
            | none =>
              simp only [firstMissingKey, hobj, hsrc, hbk, hnew, hini, hkw,
                Option.some_inj] at h
              subst h
              simp [BackendController.init, initBackend, getDest, getDestKeys,
                handleKeyErrors, requireKey, hobj, hsrc, hbk, hnew, hini, hkw, bind,
                Except.bind, Except.map]
            | some kw =>
              apply hdest
              simpa only [firstMissingKey, hobj, hsrc, hbk, hnew, hini, hkw] using h

/-- C7 witness: a settings entry whose `dest` key is absent makes
construction fail with exit code 1 and the message naming "dest". -/
theorem controller_init_missing_key_witness :
    BackendController.init
        [("example",
          ⟨some ⟨some "appconfig", some "yaml", none, some ⟨some []⟩⟩, none⟩)]
        "example" =
      .error ⟨1, missingKeyMessage "dest"⟩ :=
  (controller_init_missing_key
    [("example", ⟨some ⟨some "appconfig", some "yaml", none, some ⟨some []⟩⟩, none⟩)]
    "example" "dest" (by decide)).1

/-- The rendering step of `BackendController._do`, isolated from the
delivery action: a serializer-tag destination serializes the structured
value with the identified dumper, a template destination renders the
template compiled at construction.  The serializer library and the
template engine are external collaborators, passed as functions. -/
def dumpsOrRender {α : Type} (dumpsFn : String → α → String)
    (renderFn : Template → α → String) (dest : DestSpec) (data : α) : String :=
  match dest.format with
  | .template tpl => renderFn tpl data
  | .tag fmt => dumpsFn fmt data

/-- A delivery performed by a controller action: `rich.print` to
standard output, or `Path.write_text` overwriting the destination. -/
inductive Delivered where
  | printed (text : String)
  | wrote (path : String) (text : String)
deriving DecidableEq, Repr

/-- `BackendController._do`: render the structured value according to
the destination spec, then hand the text to the delivery action. -/
def BackendController.doAction {α : Type} (dumpsFn : String → α → String)
    (renderFn : Template → α → String) (c : BackendController)
    (action : String → Delivered) (data : α) : Delivered :=
  match c.dest.format with
  | .template tpl => action (renderFn tpl data)
  | .tag fmt => action (dumpsFn fmt data)

/-- `BackendController.get`: decode the backend's raw string with the
source-format loader, then `_do` with `print` as the sink. -/
def BackendController.get {α : Type} (loadsFn : String → String → α)
    (dumpsFn : String → α → String) (renderFn : Template → α → String)
    (c : BackendController) (raw : String) : Delivered :=
  c.doAction dumpsFn renderFn Delivered.printed (loadsFn c.src_format raw)

/-- `BackendController.write`: the same pipeline as `get`, with
`self.dest.path.write_text` as the sink. -/
def BackendController.write {α : Type} (loadsFn : String → String → α)
    (dumpsFn : String → α → String) (renderFn : Template → α → String)
    (c : BackendController) (raw : String) : Delivered :=
  c.doAction dumpsFn renderFn (Delivered.wrote c.dest.path) (loadsFn c.src_format raw)

/-- C8: destination-format resolution is decided exactly once, at
construction.  If the configured format string is a known serializer
tag, `getDest` binds that tag and every render serializes the structured
value with it; otherwise the string is treated as a template path whose
template is compiled at construction (`compileTemplate fmt` stored in
the spec) and every subsequent render reuses exactly that compiled
template. -/
theorem getDest_binds_serializer_or_template (objects : ObjectsMap) (key : String)
    (obj : ObjectEntry) (dest : DestEntry) (path fmt : String)
    (hobj : lookupKey objects key = some obj) (hdest : obj.dest = some dest)
    (hpath : dest.path = some path) (hfmt : dest.format = some fmt) :
    (fmt ∈ DUMPERS →
      getDest objects key = .ok ⟨path, .tag fmt⟩ ∧
      ∀ (α : Type) (dumpsFn : String → α → String)
        (renderFn : Template → α → String) (data : α),
        dumpsOrRender dumpsFn renderFn ⟨path, .tag fmt⟩ data = dumpsFn fmt data) ∧
    (fmt ∉ DUMPERS →
      getDest objects key = .ok ⟨path, .template (compileTemplate fmt)⟩ ∧
      ∀ (α : Type) (dumpsFn : String → α → String)
        (renderFn : Template → α → String) (data : α),
        dumpsOrRender dumpsFn renderFn ⟨path, .template (compileTemplate fmt)⟩ data =
          renderFn (compileTemplate fmt) data) := by
  constructor
  · intro hmem
    refine ⟨?_, fun α dumpsFn renderFn data => rfl⟩
    simp [getDest, getDestKeys, handleKeyErrors, requireKey, hobj, hdest, hpath, hfmt,
      bind, Except.bind, pure, Except.pure, Except.map, hmem]
  · intro hmem
    refine ⟨?_, fun α dumpsFn renderFn data => rfl⟩
    simp [getDest, getDestKeys, handleKeyErrors, requireKey, hobj, hdest, hpath, hfmt,
      bind, Except.bind, pure, Except.pure, Except.map, hmem]

/-- C8 witness: a "json" destination binds the serializer tag, and a
non-tag format string binds the template compiled from it. -/
theorem getDest_binds_serializer_or_template_witness :
    getDest [("ex", ⟨none, some ⟨some "/tmp/out.json", some "json"⟩⟩)] "ex" =
        .ok ⟨"/tmp/out.json", .tag "json"⟩ ∧
    getDest [("ex", ⟨none, some ⟨some "/tmp/out.conf", some "templates/out.j2"⟩⟩)] "ex" =
      .ok ⟨"/tmp/out.conf", .template (compileTemplate "templates/out.j2")⟩ := by
  constructor
  · exact ((getDest_binds_serializer_or_template
      [("ex", ⟨none, some ⟨some "/tmp/out.json", some "json"⟩⟩)] "ex"
      ⟨none, some ⟨some "/tmp/out.json", some "json"⟩⟩
      ⟨some "/tmp/out.json", some "json"⟩ "/tmp/out.json" "json"
      (by decide) rfl rfl rfl).1 (by decide)).1
  · exact ((getDest_binds_serializer_or_template
      [("ex", ⟨none, some ⟨some "/tmp/out.conf", some "templates/out.j2"⟩⟩)] "ex"
      ⟨none, some ⟨some "/tmp/out.conf", some "templates/out.j2"⟩⟩
      ⟨some "/tmp/out.conf", some "templates/out.j2"⟩ "/tmp/out.conf" "templates/out.j2"
      (by decide) rfl rfl rfl).2 (by decide)).1

/-- C9: for every controller state and raw backend string, `write()`
runs exactly the same decode-render pipeline as `get()` and produces
identical rendered text; the two differ only in the delivery sink —
`get` prints it, `write` overwrites the destination path with it. -/
theorem write_matches_get_rendering (α : Type) (loadsFn : String → String → α)
    (dumpsFn : String → α → String) (renderFn : Template → α → String)
    (c : BackendController) (raw : String) :
    ∃ rendered,
      BackendController.get loadsFn dumpsFn renderFn c raw = .printed rendered ∧
      BackendController.write loadsFn dumpsFn renderFn c raw =
        .wrote c.dest.path rendered ∧
      rendered = dumpsOrRender dumpsFn renderFn c.dest (loadsFn c.src_format raw) := by
  refine ⟨dumpsOrRender dumpsFn renderFn c.dest (loadsFn c.src_format raw),
    ?_, ?_, rfl⟩ <;>
    cases h : c.dest.format <;>
      simp [BackendController.get, BackendController.write, BackendController.doAction,
        dumpsOrRender, h]

/-- One step of a controller's continuous `awrite` operation under the
supervisor: either one completed decode-render-write update, or a fatal
error terminating that controller's operation. -/
inductive TaskStep where
  | update
  | fail (message : String)
deriving DecidableEq, Repr

/-- Remove the next pending step of task `i`. -/
def popHead {α : Type} : Nat → List (List α) → List (List α)
  | _, [] => []
  | 0, l :: ls => l.tail :: ls
  | n + 1, l :: ls => l :: popHead n ls

/-- The supervisor of `monitor`: `asyncio.run(asyncio.gather(*awrites))`
under cooperative scheduling.  `σ` is the scheduler's interleaving (the
indices of the tasks given a turn).  Each turn executes the chosen
task's next pending step; the first fatal error makes `gather` raise it,
and `asyncio.run` then cancels the remaining tasks (nothing executes
after the error) before `monitor` re-raises it.  Returns the outward
result together with the executed steps in order. -/
def gatherRun : List (List TaskStep) → List Nat → Except String Unit × List (Nat × TaskStep)
  | _, [] => (.ok (), [])
  | tasks, i :: σ =>
    match (tasks.get? i).bind List.head? with
    | none => gatherRun tasks σ
    | some TaskStep.update =>
        let r := gatherRun (popHead i tasks) σ
        (r.1, (i, TaskStep.update) :: r.2)
    | some (TaskStep.fail e) => (.error e, [(i, TaskStep.fail e)])

/-- The first fatal error among the executed steps, in execution order. -/
def firstFailIn (exec : List (Nat × TaskStep)) : Option String :=
  (exec.filterMap fun p =>
    match p.2 with
    | TaskStep.fail e => some e
    | TaskStep.update => none).head?

/-- C6: the supervisor's outward result is `ok` when no executed step is
a fatal error and is exactly the first fatal error encountered
otherwise, and nothing runs after that first error (a fatal step is
always the last executed step): the supervisor returns only once every
controller's operation has finished — completed, failed, or cancelled —
propagating the first fatal error to its caller. -/
theorem gather_propagates_first_fatal (tasks : List (List TaskStep)) (σ : List Nat) :
    (gatherRun tasks σ).1 =
      (match firstFailIn (gatherRun tasks σ).2 with
        | some e => .error e
        | none => .ok ()) ∧
    ∀ k i e, (gatherRun tasks σ).2.get? k = some (i, TaskStep.fail e) →
      k + 1 = (gatherRun tasks σ).2.length := by
  induction σ generalizing tasks with
  | nil => exact ⟨rfl, by intro k i e hk; simp [gatherRun] at hk⟩
  | cons j σ ih =>
    cases hstep : (tasks.get? j).bind List.head? with
    | none =>
      have h := ih tasks
      constructor
      · rw [gatherRun]
        rw [hstep]
        exact h.1
      · intro k i e hk
        rw [gatherRun, hstep] at hk ⊢
        exact h.2 k i e hk
    | some step =>
      cases step with
      | update =>
        have h := ih (popHead j tasks)
        constructor
        · rw [gatherRun, hstep]
          simpa [firstFailIn] using h.1
        · intro k i e hk
          rw [gatherRun, hstep] at hk ⊢
          cases k with
          | zero => simp at hk
          | succ k =>
            simp only [List.get?_cons_succ] at hk
            simp [h.2 k i e hk]
      | fail e =>
        constructor
        · rw [gatherRun, hstep]
          simp [firstFailIn]
        · intro k i e2 hk
          rw [gatherRun, hstep] at hk ⊢
          cases k with
          | zero => simp
          | succ k => simp at hk

/-- C6 witness: two controllers under round-robin scheduling; the first
fails on its third update, and the supervisor's outward result is
exactly that error, with nothing executed afterwards (end-to-end
scenario 5 of the specification). -/
theorem gather_propagates_first_fatal_witness :
    (gatherRun
        [[TaskStep.update, TaskStep.update, TaskStep.fail "boom"],
          [TaskStep.update, TaskStep.update, TaskStep.update]]
        [0, 1, 0, 1, 0, 1]).1 = .error "boom" ∧
    (gatherRun
        [[TaskStep.update, TaskStep.update, TaskStep.fail "boom"],
          [TaskStep.update, TaskStep.update, TaskStep.update]]
        [0, 1, 0, 1, 0, 1]).2.get? 4 =
      some (0, TaskStep.fail "boom") ∧
    4 + 1 =
      (gatherRun
        [[TaskStep.update, TaskStep.update, TaskStep.fail "boom"],
          [TaskStep.update, TaskStep.update, TaskStep.update]]
        [0, 1, 0, 1, 0, 1]).2.length := by
  refine ⟨?_, ?_, ?_⟩
  · have h := (gather_propagates_first_fatal
      [[TaskStep.update, TaskStep.update, TaskStep.fail "boom"],
        [TaskStep.update, TaskStep.update, TaskStep.update]]
      [0, 1, 0, 1, 0, 1]).1
    rw [h]
    have hf : firstFailIn
        (gatherRun
          [[TaskStep.update, TaskStep.update, TaskStep.fail "boom"],
            [TaskStep.update, TaskStep.update, TaskStep.update]]
          [0, 1, 0, 1, 0, 1]).2 = some "boom" := by decide
    rw [hf]
  · decide
  · exact (gather_propagates_first_fatal
      [[TaskStep.update, TaskStep.update, TaskStep.fail "boom"],
        [TaskStep.update, TaskStep.update, TaskStep.update]]
      [0, 1, 0, 1, 0, 1]).2 4 0 "boom" (by decide)

/-- A filesystem action performed by the `apply` / `monitor` commands. -/
inductive FsEvent where
  | mkdirParents (dir : String) (parents : Bool) (existOk : Bool)
  | writeFile (path : String) (text : String)
deriving DecidableEq, Repr

/-- `Path.parent` of a slash-separated path string. -/
def parentOfPath (p : String) : String :=
  String.intercalate "/" ((p.splitOn "/").dropLast)

/-- The writes of one controller's `awrite`: for every raw string the
backend's poll emits, decode it with the source format and overwrite the
destination path with the rendered text. -/
def awriteEvents {α : Type} (loadsFn : String → String → α)
    (dumpsFn : String → α → String) (renderFn : Template → α → String)
    (c : BackendController) (contents : List String) : List FsEvent :=
  contents.map fun raw =>
    FsEvent.writeFile c.dest.path
      (dumpsOrRender dumpsFn renderFn c.dest (loadsFn c.src_format raw))

/-- Cooperative interleaving of the per-controller event lists under the
scheduler's choice `σ` of which controller runs next. -/
def scheduleMerge {α : Type} : List (List α) → List Nat → List α
  | _, [] => []
  | ls, i :: σ =>
    match (ls.get? i).bind List.head? with
    | none => scheduleMerge ls σ
    | some a => a :: scheduleMerge (popHead i ls) σ

/-- The filesystem trace of the `apply` command for one controller:
`ctrl.dest.path.parent.mkdir(parents=True, exist_ok=True)` first, then
the write of the rendered value. -/
def applyEvents {α : Type} (loadsFn : String → String → α)
    (dumpsFn : String → α → String) (renderFn : Template → α → String)
    (c : BackendController) (raw : String) : List FsEvent :=
  [FsEvent.mkdirParents (parentOfPath c.dest.path) true true,
    FsEvent.writeFile c.dest.path
      (dumpsOrRender dumpsFn renderFn c.dest (loadsFn c.src_format raw))]

/-- The filesystem trace of the `monitor` command: first the loop
creating every controller's destination parent directory
(`parents=True, exist_ok=True`), then `asyncio.run(poll_all())`, whose
interleaved `awrite` operations only ever write files. -/
def monitorEvents {α : Type} (loadsFn : String → String → α)
    (dumpsFn : String → α → String) (renderFn : Template → α → String)
    (ctrls : List BackendController) (contentss : List (List String))
    (σ : List Nat) : List FsEvent :=
  (ctrls.map fun c => FsEvent.mkdirParents (parentOfPath c.dest.path) true true) ++
    scheduleMerge
      ((ctrls.zip contentss).map fun p =>
        awriteEvents loadsFn dumpsFn renderFn p.1 p.2) σ

theorem popHead_forall {α : Type} (P : α → Prop) :
    ∀ (i : Nat) (ls : List (List α)), (∀ l ∈ ls, ∀ a ∈ l, P a) →
      ∀ l ∈ popHead i ls, ∀ a ∈ l, P a := by
  intro i
  induction i with
  | zero =>
    intro ls h l hl a ha
    cases ls with
    | nil => simp [popHead] at hl
    | cons l0 ls =>
      simp only [popHead, List.mem_cons] at hl
      rcases hl with rfl | hl
      · exact h l0 (by simp) a (List.mem_of_mem_tail ha)
      · exact h l (by simp [hl]) a ha
  | succ i ih =>
    intro ls h l hl a ha
    cases ls with
    | nil => simp [popHead] at hl
    | cons l0 ls =>
      simp only [popHead, List.mem_cons] at hl
      rcases hl with rfl | hl
      · exact h l (by simp) a ha
      · exact ih ls (fun l2 h2 => h l2 (by simp [h2])) l hl a ha

theorem scheduleMerge_forall {α : Type} (P : α → Prop) :
    ∀ (σ : List Nat) (ls : List (List α)), (∀ l ∈ ls, ∀ a ∈ l, P a) →
      ∀ a ∈ scheduleMerge ls σ, P a := by
  intro σ
  induction σ with
  | nil => intro ls h a ha; simp [scheduleMerge] at ha
  | cons i σ ih =>
    intro ls h a ha
    rw [scheduleMerge] at ha
    cases hstep : (ls.get? i).bind List.head? with
    | none =>
      rw [hstep] at ha
      exact ih ls h a ha
    | some b =>
      rw [hstep] at ha
      rcases List.mem_cons.mp ha with rfl | ha
      · obtain ⟨l, hl, hb⟩ := Option.bind_eq_some.mp hstep
        exact h l (List.get?_mem hl) a (List.mem_of_mem_head? hb)
      · exact ih (popHead i ls) (popHead_forall P i ls h) a ha

/-- C10: before any file write, `apply` and `monitor` create each
controller's destination parent directory with `parents=True` and
`exist_ok=True`.  For `monitor`: every controller's mkdir event is in
the trace, and every mkdir event precedes every write event (the mkdir
loop runs to completion before `asyncio.run(poll_all())` starts); for
`apply`: the trace is literally the mkdir followed by the write. -/
theorem mkdir_before_writes (α : Type) (loadsFn : String → String → α)
    (dumpsFn : String → α → String) (renderFn : Template → α → String)
    (ctrls : List BackendController) (contentss : List (List String))
    (σ : List Nat) (raw : String) (c : BackendController) (hc : c ∈ ctrls) :
    FsEvent.mkdirParents (parentOfPath c.dest.path) true true ∈
      monitorEvents loadsFn dumpsFn renderFn ctrls contentss σ ∧
    (∀ i j di pi ei p t,
      (monitorEvents loadsFn dumpsFn renderFn ctrls contentss σ).get? i =
          some (FsEvent.mkdirParents di pi ei) →
      (monitorEvents loadsFn dumpsFn renderFn ctrls contentss σ).get? j =
          some (FsEvent.writeFile p t) →
      i < j) ∧
    applyEvents loadsFn dumpsFn renderFn c raw =
      [FsEvent.mkdirParents (parentOfPath c.dest.path) true true,
        FsEvent.writeFile c.dest.path
          (dumpsOrRender dumpsFn renderFn c.dest (loadsFn c.src_format raw))] := by
  have hwrites : ∀ e ∈ scheduleMerge
      ((ctrls.zip contentss).map fun p =>
        awriteEvents loadsFn dumpsFn renderFn p.1 p.2) σ,
      ∃ p t, e = FsEvent.writeFile p t := by
    apply scheduleMerge_forall (fun e => ∃ p t, e = FsEvent.writeFile p t) σ
    intro l hl a ha
    obtain ⟨pr, hpr, rfl⟩ := List.mem_map.mp hl
    obtain ⟨raw2, hraw2, rfl⟩ := List.mem_map.mp ha
    exact ⟨_, _, rfl⟩
  refine ⟨?_, ?_, rfl⟩
  · exact List.mem_append_left _ (List.mem_map.mpr ⟨c, hc, rfl⟩)
  · intro i j di pi ei p t hi hj
    have hiL : i < ctrls.length := by
      by_contra hge
      push_neg at hge
      rw [monitorEvents, List.get?_append_right (by simpa using hge)] at hi
      obtain ⟨p2, t2, he⟩ := hwrites _ (List.get?_mem hi)
      simp at he
    have hjR : ctrls.length ≤ j := by
      by_contra hlt
      push_neg at hlt
      rw [monitorEvents, List.get?_append (by simpa using hlt), List.get?_map] at hj
      cases hg : ctrls.get? j with
      | none => rw [hg] at hj; simp at hj
      | some c2 => rw [hg] at hj; simp at hj
    omega

/-- C10 witness: one controller with destination `/etc/conf/out.yaml`;
its parent-directory creation event is part of the `monitor` trace. -/
theorem mkdir_before_writes_witness :
    FsEvent.mkdirParents (parentOfPath "/etc/conf/out.yaml") true true ∈
      monitorEvents (fun _ s => s) (fun _ s => s) (fun _ s => s)
        [⟨"raw", ⟨"appconfig", false, []⟩, ⟨"/etc/conf/out.yaml", DestFormat.tag "yaml"⟩⟩]
        [["hello"]] [0, 0] :=
  (mkdir_before_writes String (fun _ s => s) (fun _ s => s) (fun _ s => s)
    [⟨"raw", ⟨"appconfig", false, []⟩, ⟨"/etc/conf/out.yaml", DestFormat.tag "yaml"⟩⟩]
    [["hello"]] [0, 0] "hello"
    ⟨"raw", ⟨"appconfig", false, []⟩, ⟨"/etc/conf/out.yaml", DestFormat.tag "yaml"⟩⟩
    (by simp)).1
